import Mathlib

/-!
# Verification of the KVV transit response decoders (`src/efa.rs`)

This file gives a shallow embedding of the two response decoders of the
repository — the JSON stop-finder decoder (`parse_stopfinder_json` /
`parse_stop_point`) and the streaming XML departure decoder
(`parse_departures_xml` with its helpers `parse_time_from_attrs` and
`parse_serving_line_attrs`) — together with the query builders and the
`departures` / `departures_live` entry points, and proves the specified
properties about them.

External collaborators are modelled as parameters:
* `decode : String → String` stands for `html_escape::decode_html_entities`
  (the Rust `decode_text` wrapper);
* the JSON decoder receives the result of `serde_json::from_str` as an
  `Except String Json` value (an error there is the only fatal condition);
* the XML decoder consumes the event stream produced by the `quick_xml`
  reader: a list of `Except String XmlEvent` values, the end of the list
  standing for the `Eof` event.  Attribute lists carry the key/value pairs
  the (flattened) attribute iterator yields, in document order.
-/

deriving instance DecidableEq for Except

namespace KVV

/-- `serde_json::Value`, restricted to what the decoder inspects.  Objects
are association lists with the (unique) keys in document order. -/
inductive Json where
  | null
  | bool (b : Bool)
  | num (n : Int)
  | str (s : String)
  | arr (l : List Json)
  | obj (l : List (String × Json))

/-- `Value::get(key)`: member lookup on objects, `None` on any other shape. -/
def Json.get (j : Json) (key : String) : Option Json :=
  match j with
  | .obj l => l.lookup key
  | _ => none

/-- `Value::as_str`. -/
def Json.as_str : Json → Option String
  | .str s => some s
  | _ => none

/-- The `StopSuggestion` record of `src/efa.rs`. -/
structure StopSuggestion where
  id : String
  name : String
  place : Option String
deriving DecidableEq

/-- The `Departure` record of `src/efa.rs`. -/
structure Departure where
  line : String
  direction : Option String
  time : String
  planned_time : String
  realtime_time : Option String
deriving DecidableEq

/-- The type-resolution step at the head of `parse_stop_point`: the string
value of `type`, replaced by the string value of `anyType` when it is the
literal `"any"` (`None` when the involved members are missing or not
strings). -/
def resolved_type (point : Json) : Option String :=
  match (point.get "type").bind Json.as_str with
  | none => none
  | some t => if t = "any" then (point.get "anyType").bind Json.as_str else some t

/-- The field-extraction tail of `parse_stop_point`: mandatory `name` and
`ref.id`, optional entity-decoded `ref.place` dropped when empty. -/
def parse_stop_fields (decode : String → String) (point : Json) : Option StopSuggestion :=
  match (point.get "name").bind Json.as_str with
  | none => none
  | some name =>
    match point.get "ref" with
    | none => none
    | some reference =>
      match (reference.get "id").bind Json.as_str with
      | none => none
      | some id =>
        some { id := id, name := decode name,
               place := (((reference.get "place").bind Json.as_str).map decode).filter
                 (fun p => !p.isEmpty) }

/-- `parse_stop_point` from `src/efa.rs`: resolve the point type (early
return on a missing/non-string type), keep only resolved type `"stop"`, then
extract the fields; `none` when the point is filtered out or incomplete. -/
def parse_stop_point (decode : String → String) (point : Json) : Option StopSuggestion :=
  match resolved_type point with
  | none => none
  | some typ =>
    if typ ≠ "stop" then none
    else parse_stop_fields decode point

/-- The `match points`-body of `parse_stopfinder_json`: fold the located
point container into a list of suggestions. -/
def collect_points (decode : String → String) (points : Option Json) : List StopSuggestion :=
  match points with
  | some (.obj map) =>
    match map.lookup "point" with
    | some point => (parse_stop_point decode point).toList
    | none => []
  | some (.arr l) => l.filterMap (parse_stop_point decode)
  | _ => []

/-- `parse_stopfinder_json` from `src/efa.rs`.  The argument is the result of
`serde_json::from_str(body)` (whose error, stringified, is propagated as the
only failure).  The container is looked up at `stopFinder.points`, falling
back to the `stopFinder` value itself. -/
def parse_stopfinder_json (decode : String → String) (parsed : Except String Json) :
    Except String (List StopSuggestion) :=
  match parsed with
  | .error e => .error e
  | .ok json =>
    let points := ((json.get "stopFinder").bind (fun sf => sf.get "points")).or
      (json.get "stopFinder")
    .ok (collect_points decode points)

/-! ## The XML departure decoder -/

/-- One `quick_xml` event as the decoder distinguishes them: `Start`, `Empty`
and `End` tags (with name and attribute pairs), and `other` for every event
kind the Rust `match` ignores (text, comments, declarations, ...). -/
inductive XmlEvent where
  | start (name : String) (attrs : List (String × String))
  | empty (name : String) (attrs : List (String × String))
  | endTag (name : String)
  | other
deriving DecidableEq

/-- Last-wins extraction of one attribute key from the attribute pairs, as the
Rust `for attr in e.attributes().flatten()` loops assign per key. -/
def last_attr (key : String) (attrs : List (String × String)) : Option String :=
  attrs.foldl (fun acc kv => if kv.1 = key then some kv.2 else acc) none

/-- Decimal value of a digit string: `none` as soon as a non-digit occurs
(the empty list yields the accumulator). -/
def digits_val : List Char → Nat → Option Nat
  | [], acc => some acc
  | c :: rest, acc =>
    if c.isDigit then digits_val rest (acc * 10 + (c.toNat - 48)) else none

/-- Rust `str::parse::<u8>()`: an optional leading plus sign, then at least
one decimal digit, value at most 255. -/
def parse_u8 (s : String) : Option Nat :=
  let cs := match s.data with
    | c :: rest => if c = '+' then rest else s.data
    | [] => []
  match cs with
  | [] => none
  | _ :: _ =>
    match digits_val cs 0 with
    | some n => if n ≤ 255 then some n else none
    | none => none

/-- The Rust format specifier `{:02}`: decimal, zero-padded to width two. -/
def pad2 (n : Nat) : String :=
  if n < 10 then "0" ++ toString n else toString n

/-- `parse_time_from_attrs` from `src/efa.rs`: read the `hour` and `minute`
attributes, parse both as `u8`, and format `"HH:MM"`; `none` when either is
missing or unparseable. -/
def parse_time_from_attrs (attrs : List (String × String)) : Option String :=
  match last_attr "hour" attrs, last_attr "minute" attrs with
  | some h, some m =>
    match parse_u8 h, parse_u8 m with
    | some hh, some mm => some (pad2 hh ++ ":" ++ pad2 mm)
    | _, _ => none
  | _, _ => none

/-- `parse_serving_line_attrs` from `src/efa.rs`, returning the values it
assigns to `current_line` and `current_direction`: `symbol` falling back to
`number`, and the entity-decoded `direction` attribute. -/
def parse_serving_line_attrs (decode : String → String) (attrs : List (String × String)) :
    Option String × Option String :=
  let symbol := last_attr "symbol" attrs
  let number := last_attr "number" attrs
  let direction := (last_attr "direction" attrs).map decode
  (symbol.or number, direction)

/-- The local mutable state of the `parse_departures_xml` loop. -/
structure DepState where
  in_departure : Bool
  in_datetime : Bool
  in_rt_datetime : Bool
  current_line : Option String
  current_direction : Option String
  current_time : Option String
  planned_time : Option String
  realtime_time : Option String
  departures : List Departure
deriving DecidableEq

/-- The initial values of the loop locals in `parse_departures_xml`. -/
def init_state : DepState :=
  { in_departure := false, in_datetime := false, in_rt_datetime := false,
    current_line := none, current_direction := none, current_time := none,
    planned_time := none, realtime_time := none, departures := [] }

/-- The `itdTime` / `itdServingLine` arms shared by the `Start` and `Empty`
events of the Rust `match` (guards included, in guard order: the scheduled
arm is tried before the real-time arm). -/
def leaf_step (decode : String → String) (s : DepState) (name : String)
    (attrs : List (String × String)) : DepState :=
  if name = "itdTime" && s.in_departure && s.in_datetime then
    match parse_time_from_attrs attrs with
    | some t =>
      { s with planned_time := some t,
               current_time := if s.realtime_time.isNone then some t else s.current_time }
    | none => s
  else if name = "itdTime" && s.in_departure && s.in_rt_datetime then
    match parse_time_from_attrs attrs with
    | some t => { s with realtime_time := some t, current_time := some t }
    | none => s
  else if name = "itdServingLine" && s.in_departure then
    let lf := parse_serving_line_attrs decode attrs
    { s with current_line := lf.1, current_direction := lf.2 }
  else s

/-- One iteration of the `parse_departures_xml` event loop on a successfully
read event, mirroring the Rust `match` arm for arm.  The `Start` arms for
`itdDeparture`, `itdDateTime` and `itdRTDateTime` are tried first; the
remaining `Start` arms coincide with the `Empty` arms (`leaf_step`). -/
def step (decode : String → String) (s : DepState) (ev : XmlEvent) : DepState :=
  match ev with
  | .start name attrs =>
    if name = "itdDeparture" then
      { s with in_departure := true, current_line := none, current_direction := none,
               current_time := none, planned_time := none, realtime_time := none }
    else if name = "itdDateTime" && s.in_departure then
      if s.current_time.isNone then { s with in_datetime := true } else s
    else if name = "itdRTDateTime" && s.in_departure then
      if s.realtime_time.isNone then { s with in_rt_datetime := true } else s
    else leaf_step decode s name attrs
  | .empty name attrs => leaf_step decode s name attrs
  | .endTag name =>
    if name = "itdDateTime" then { s with in_datetime := false }
    else if name = "itdRTDateTime" then { s with in_rt_datetime := false }
    else if name = "itdDeparture" then
      match s.current_line, s.current_time, s.planned_time with
      | some line, some time, some planned =>
        { s with departures := s.departures ++
                   [{ line := line, direction := s.current_direction, time := time,
                      planned_time := planned, realtime_time := s.realtime_time }],
                 current_line := none, current_time := none, planned_time := none,
                 current_direction := none, realtime_time := none, in_departure := false }
      | _, _, _ =>
        { s with current_line := none, current_time := none, planned_time := none,
                 in_departure := false }
    else s
  | .other => s

/-- The event loop of `parse_departures_xml`: consume events until the first
read error (propagated) or `Eof` (the end of the list). -/
def run_events (decode : String → String) :
    List (Except String XmlEvent) → DepState → Except String (List Departure)
  | [], s => .ok s.departures
  | .error e :: _, _ => .error e
  | .ok ev :: rest, s => run_events decode rest (step decode s ev)

/-- `parse_departures_xml` from `src/efa.rs`, over the reader event stream. -/
def parse_departures_xml (decode : String → String)
    (events : List (Except String XmlEvent)) : Except String (List Departure) :=
  run_events decode events init_state

/-! ## Query builders and entry points -/

/-- `common_params` from `src/efa.rs`. -/
def common_params : List (String × String) :=
  [("language", "de"), ("stateless", "1"),
   ("coordOutputFormat", "WGS84[DD.ddddd]"), ("coordOutputFormatTail", "7")]

/-- The query parameters `departures` assembles before fetching. -/
def departure_params (station_id : String) (max : Nat) : List (String × String) :=
  common_params ++
    [("outputFormat", "XML"), ("type_dm", "stop"), ("name_dm", station_id),
     ("useRealtime", "1"), ("mode", "direct"), ("ptOptionsActive", "1"),
     ("deleteAssignedStops_dm", "1"), ("useProxFootSearch", "0"),
     ("mergeDep", "1"), ("limit", toString max)]

/-- `departures` from `src/efa.rs`: build the parameters, fetch, and parse.
`fetch_text` is the awaited transport call (already applied to the fixed
request URL) and `read_events` the `quick_xml` tokenisation of the body. -/
def departures (fetch_text : List (String × String) → Except String String)
    (read_events : String → List (Except String XmlEvent))
    (decode : String → String) (station_id : String) (max : Nat) :
    Except String (List Departure) :=
  match fetch_text (departure_params station_id max) with
  | .error e => .error e
  | .ok body => parse_departures_xml decode (read_events body)

/-- `departures_live` from `src/efa.rs`: a direct delegation to `departures`. -/
def departures_live (fetch_text : List (String × String) → Except String String)
    (read_events : String → List (Except String XmlEvent))
    (decode : String → String) (station_id : String) (max : Nat) :
    Except String (List Departure) :=
  departures fetch_text read_events decode station_id max

/-! ## Sample inputs (the repository test payloads and counterexample data) -/

/-- The event stream of the departure XML in the repository's unit test
`parse_departures_xml_extracts_line_time_direction`. -/
def sample_events : List (Except String XmlEvent) :=
  [.ok (.start "itdRequest" []),
   .ok (.start "itdDepartureMonitorRequest" []),
   .ok (.start "itdDepartureList" []),
   .ok (.start "itdDeparture" [("stopID", "1001")]),
   .ok (.start "itdDateTime" []),
   .ok (.empty "itdDate" [("year", "2024"), ("month", "01"), ("day", "01"), ("weekday", "1")]),
   .ok (.empty "itdTime" [("hour", "08"), ("minute", "05")]),
   .ok (.endTag "itdDateTime"),
   .ok (.start "itdRTDateTime" []),
   .ok (.empty "itdDate" [("year", "2024"), ("month", "01"), ("day", "01"), ("weekday", "1")]),
   .ok (.empty "itdTime" [("hour", "08"), ("minute", "07")]),
   .ok (.endTag "itdRTDateTime"),
   .ok (.empty "itdServingLine" [("symbol", "S1"), ("direction", "Hbf"), ("motType", "1")]),
   .ok (.endTag "itdDeparture"),
   .ok (.start "itdDeparture" [("stopID", "1002")]),
   .ok (.start "itdDateTime" []),
   .ok (.empty "itdDate" [("year", "2024"), ("month", "01"), ("day", "01"), ("weekday", "1")]),
   .ok (.empty "itdTime" [("hour", "09"), ("minute", "30")]),
   .ok (.endTag "itdDateTime"),
   .ok (.empty "itdServingLine" [("number", "2"), ("direction", "Durlach"), ("motType", "3")]),
   .ok (.endTag "itdDeparture"),
   .ok (.endTag "itdDepartureList"),
   .ok (.endTag "itdDepartureMonitorRequest"),
   .ok (.endTag "itdRequest")]

/-- The first departure record that `sample_events` produces. -/
def sample_dep1 : Departure :=
  { line := "S1", direction := some "Hbf", time := "08:07", planned_time := "08:05",
    realtime_time := some "08:07" }

/-- The second departure record that `sample_events` produces. -/
def sample_dep2 : Departure :=
  { line := "2", direction := some "Durlach", time := "09:30", planned_time := "09:30",
    realtime_time := none }

/-- A departure element whose real-time date/time block precedes its
scheduled date/time block in document order. -/
def rt_first_events : List (Except String XmlEvent) :=
  [.ok (.start "itdDeparture" []),
   .ok (.start "itdRTDateTime" []),
   .ok (.empty "itdTime" [("hour", "8"), ("minute", "7")]),
   .ok (.endTag "itdRTDateTime"),
   .ok (.start "itdDateTime" []),
   .ok (.empty "itdTime" [("hour", "8"), ("minute", "5")]),
   .ok (.endTag "itdDateTime"),
   .ok (.empty "itdServingLine" [("symbol", "S1")]),
   .ok (.endTag "itdDeparture")]

/-- The same departure element with the two date/time blocks in the expected
order (scheduled first). -/
def sched_first_events : List (Except String XmlEvent) :=
  [.ok (.start "itdDeparture" []),
   .ok (.start "itdDateTime" []),
   .ok (.empty "itdTime" [("hour", "8"), ("minute", "5")]),
   .ok (.endTag "itdDateTime"),
   .ok (.start "itdRTDateTime" []),
   .ok (.empty "itdTime" [("hour", "8"), ("minute", "7")]),
   .ok (.endTag "itdRTDateTime"),
   .ok (.empty "itdServingLine" [("symbol", "S1")]),
   .ok (.endTag "itdDeparture")]

/-- The plain events (all reads successful) of `rt_first_events` up to and
including the time element inside the scheduled date/time sub-element. -/
def rt_first_sched_time_run : List XmlEvent :=
  [.start "itdDeparture" [],
   .start "itdRTDateTime" [],
   .empty "itdTime" [("hour", "8"), ("minute", "7")],
   .endTag "itdRTDateTime",
   .start "itdDateTime" [],
   .empty "itdTime" [("hour", "8"), ("minute", "5")]]

/-- The two stop-search points of the repository's unit test
`parse_stopfinder_json_extracts_stop_suggestions`. -/
def sample_points : List Json :=
  [.obj [("type", .str "stop"), ("name", .str "Karlsruhe Hbf"),
         ("ref", .obj [("id", .str "7000101"), ("place", .str "Karlsruhe")])],
   .obj [("type", .str "poi"), ("name", .str "Zoo"),
         ("ref", .obj [("id", .str "poi-1"), ("place", .str "Karlsruhe")])]]

/-- The `stopFinder` member of the repository's stop-search test payload. -/
def sample_sf : Json := .obj [("points", .arr sample_points)]

/-- The stop-search JSON of the repository's unit test. -/
def sample_json : Json := .obj [("stopFinder", sample_sf)]

/-- A stop-typed point with no `name` member. -/
def point_noname : Json := .obj [("type", .str "stop")]

/-- A stop-typed point whose `name` and `ref.id` are empty strings. -/
def point_empty_fields : Json :=
  .obj [("type", .str "stop"), ("name", .str ""), ("ref", .obj [("id", .str "")])]

/-- A stop-search payload whose `points` array holds two stop-typed entries,
one missing its `name` and one with empty `name`/`ref.id`. -/
def degenerate_json : Json :=
  .obj [("stopFinder", .obj [("points", .arr [point_noname, point_empty_fields])])]

/-- A point with `type` `"any"` and `anyType` `"stop"` but no further
members. -/
def point_any_bare : Json := .obj [("type", .str "any"), ("anyType", .str "stop")]

/-- A complete point with `type` `"any"` and `anyType` `"stop"`. -/
def point_any_full : Json :=
  .obj [("type", .str "any"), ("anyType", .str "stop"), ("name", .str "Marktplatz"),
        ("ref", .obj [("id", .str "7000002"), ("place", .str "Karlsruhe")])]

/-- The `ref` object of `point_place_empty`. -/
def ref_place_empty : Json := .obj [("id", .str "7000003"), ("place", .str "")]

/-- A stop point whose `ref.place` is the empty string. -/
def point_place_empty : Json :=
  .obj [("type", .str "stop"), ("name", .str "Entenfang"), ("ref", ref_place_empty)]

/-- A stop-search payload without `points`, exercising the fallback that
treats the `stopFinder` value itself as the point container. -/
def fallback_json : Json := .obj [("stopFinder", .arr sample_points)]

/-- A loop state inside a departure element and inside its scheduled
date/time sub-element, with nothing recorded yet. -/
def state_sched : DepState :=
  { in_departure := true, in_datetime := true, in_rt_datetime := false,
    current_line := none, current_direction := none, current_time := none,
    planned_time := none, realtime_time := none, departures := [] }

/-- A loop state inside a departure element and inside its real-time
date/time sub-element, with the planned time already recorded. -/
def state_rt : DepState :=
  { in_departure := true, in_datetime := false, in_rt_datetime := true,
    current_line := none, current_direction := none, current_time := some "08:05",
    planned_time := some "08:05", realtime_time := none, departures := [] }

/-! ## Loop invariant for the displayed-time property -/

/-- Pure iteration of the event loop body over already-read events; used to
state properties about intermediate loop states. -/
def run_state (decode : String → String) (evs : List XmlEvent) (s : DepState) : DepState :=
  evs.foldl (step decode) s

/-- The displayed time of a departure record is the realtime time when
present, the planned time otherwise. -/
def time_good (d : Departure) : Prop :=
  d.time = d.realtime_time.getD d.planned_time

/-- Loop invariant of `parse_departures_xml`: outside a departure the taken
accumulators are clear; inside one, the display time accumulator mirrors the
realtime accumulator when set and the planned one otherwise; and every
departure already emitted satisfies `time_good`. -/
def dep_inv (s : DepState) : Prop :=
  (s.in_departure = false →
    s.current_line = none ∧ s.current_time = none ∧ s.planned_time = none) ∧
  (s.in_departure = true → s.current_time = s.realtime_time.or s.planned_time) ∧
  (∀ d ∈ s.departures, time_good d)

lemma dep_inv_init : dep_inv init_state := by
  refine ⟨fun _ => ⟨rfl, rfl, rfl⟩, fun _ => rfl, ?_⟩
  intro d hd
  simp [init_state] at hd

lemma dep_inv_leaf (decode : String → String) (s : DepState) (name : String)
    (attrs : List (String × String)) (h : dep_inv s) :
    dep_inv (leaf_step decode s name attrs) := by
  obtain ⟨h1, h2, h3⟩ := h
  unfold leaf_step
  by_cases c1 : (name = "itdTime" && s.in_departure && s.in_datetime) = true
  · -- the scheduled-sub-element time arm
    rw [if_pos c1]
    have hin : s.in_departure = true := by
      simp only [Bool.and_eq_true, decide_eq_true_eq] at c1
      exact c1.1.2
    cases hp : parse_time_from_attrs attrs with
    | none => exact ⟨h1, h2, h3⟩
    | some t =>
      refine ⟨fun hf => by rw [hin] at hf; exact Bool.noConfusion hf, fun _ => ?_, h3⟩
      cases hrt : s.realtime_time with
      | none => rfl
      | some r =>
        have hc := h2 hin
        rw [hrt] at hc
        exact hc
  · rw [if_neg c1]
    by_cases c2 : (name = "itdTime" && s.in_departure && s.in_rt_datetime) = true
    · -- the real-time-sub-element time arm
      rw [if_pos c2]
      have hin : s.in_departure = true := by
        simp only [Bool.and_eq_true, decide_eq_true_eq] at c2
        exact c2.1.2
      cases hp : parse_time_from_attrs attrs with
      | none => exact ⟨h1, h2, h3⟩
      | some t =>
        exact ⟨fun hf => by rw [hin] at hf; exact Bool.noConfusion hf, fun _ => rfl, h3⟩
    · rw [if_neg c2]
      by_cases c3 : (name = "itdServingLine" && s.in_departure) = true
      · -- the serving-line arm
        rw [if_pos c3]
        have hin : s.in_departure = true := by
          simp only [Bool.and_eq_true, decide_eq_true_eq] at c3
          exact c3.2
        exact ⟨fun hf => by rw [hin] at hf; exact Bool.noConfusion hf, fun _ => h2 hin, h3⟩
      · rw [if_neg c3]
        exact ⟨h1, h2, h3⟩

lemma dep_inv_step (decode : String → String) (s : DepState) (ev : XmlEvent)
    (h : dep_inv s) : dep_inv (step decode s ev) := by
  obtain ⟨h1, h2, h3⟩ := h
  cases ev with
  | other => exact ⟨h1, h2, h3⟩
  | empty name attrs => exact dep_inv_leaf decode s name attrs ⟨h1, h2, h3⟩
  | start name attrs =>
    simp only [step]
    by_cases hdep : name = "itdDeparture"
    · rw [if_pos hdep]
      exact ⟨fun hf => Bool.noConfusion hf, fun _ => rfl, h3⟩
    · rw [if_neg hdep]
      by_cases hdt : (name = "itdDateTime" && s.in_departure) = true
      · rw [if_pos hdt]
        have hin : s.in_departure = true := by
          simp only [Bool.and_eq_true, decide_eq_true_eq] at hdt
          exact hdt.2
        split
        · exact ⟨fun hf => by rw [hin] at hf; exact Bool.noConfusion hf,
                 fun _ => h2 hin, h3⟩
        · exact ⟨h1, h2, h3⟩
      · rw [if_neg hdt]
        by_cases hrt : (name = "itdRTDateTime" && s.in_departure) = true
        · rw [if_pos hrt]
          have hin : s.in_departure = true := by
            simp only [Bool.and_eq_true, decide_eq_true_eq] at hrt
            exact hrt.2
          split
          · exact ⟨fun hf => by rw [hin] at hf; exact Bool.noConfusion hf,
                   fun _ => h2 hin, h3⟩
          · exact ⟨h1, h2, h3⟩
        · rw [if_neg hrt]
          exact dep_inv_leaf decode s name attrs ⟨h1, h2, h3⟩
  | endTag name =>
    simp only [step]
    split_ifs with hdt hrt hdep
    · exact ⟨fun hf => h1 hf, fun ht => h2 ht, h3⟩
    · exact ⟨fun hf => h1 hf, fun ht => h2 ht, h3⟩
    · split
      case _ line time planned hline htime hplanned =>
        refine ⟨fun _ => ⟨rfl, rfl, rfl⟩, fun ht => Bool.noConfusion ht, ?_⟩
        intro d hd
        simp only [List.mem_append, List.mem_singleton] at hd
        rcases hd with hd | hd
        · exact h3 d hd
        · subst hd
          by_cases hin : s.in_departure = true
          · have hc := h2 hin
            rw [htime] at hc
            cases hrtv : s.realtime_time with
            | none =>
              rw [hrtv, hplanned] at hc
              have htp : time = planned := Option.some.inj hc
              show time = (Option.getD none planned)
              simpa using htp
            | some r =>
              rw [hrtv] at hc
              have htr : time = r := Option.some.inj hc
              show time = (Option.getD (some r) planned)
              simpa using htr
          · have hnone := (h1 (by simpa using hin)).2.1
            rw [htime] at hnone
            exact Option.noConfusion hnone
      case _ =>
        exact ⟨fun _ => ⟨rfl, rfl, rfl⟩, fun ht => Bool.noConfusion ht, h3⟩
    · exact ⟨h1, h2, h3⟩

lemma run_events_good (decode : String → String) :
    ∀ (evs : List (Except String XmlEvent)) (s : DepState) (ds : List Departure),
      dep_inv s → run_events decode evs s = .ok ds → ∀ d ∈ ds, time_good d := by
  intro evs
  induction evs with
  | nil =>
    intro s ds hinv hrun
    simp only [run_events, Except.ok.injEq] at hrun
    subst hrun
    exact hinv.2.2
  | cons x rest ih =>
    intro s ds hinv hrun
    cases x with
    | error e => simp [run_events] at hrun
    | ok ev => exact ih (step decode s ev) ds (dep_inv_step decode s ev hinv) hrun

lemma run_events_all_ok (decode : String → String) :
    ∀ (evs : List (Except String XmlEvent)) (s : DepState),
      (∀ x ∈ evs, ∃ ev, x = Except.ok ev) →
      ∃ ds, run_events decode evs s = .ok ds := by
  intro evs
  induction evs with
  | nil => intro s _; exact ⟨_, rfl⟩
  | cons x rest ih =>
    intro s h
    obtain ⟨ev, hx⟩ := h x (by simp)
    subst hx
    exact ih (step decode s ev) (fun y hy => h y (by simp [hy]))

lemma run_events_first_error (decode : String → String) :
    ∀ (pre : List (Except String XmlEvent)) (e : String)
      (rest : List (Except String XmlEvent)) (s : DepState),
      (∀ x ∈ pre, ∃ ev, x = Except.ok ev) →
      run_events decode (pre ++ .error e :: rest) s = .error e := by
  intro pre
  induction pre with
  | nil => intro e rest s _; rfl
  | cons x xs ih =>
    intro e rest s h
    obtain ⟨ev, hx⟩ := h x (by simp)
    subst hx
    rw [List.cons_append]
    exact ih e rest (step decode s ev) (fun y hy => h y (by simp [hy]))

/-! ## Claims -/

/-- C1: for every departure XML event stream, every `Departure` record
emitted by `parse_departures_xml` has `time` equal to `realtime_time` when
the latter is present, and equal to `planned_time` otherwise. -/
theorem emitted_time_realtime_else_planned (decode : String → String)
    (events : List (Except String XmlEvent)) (ds : List Departure)
    (h : parse_departures_xml decode events = .ok ds) :
    ∀ d ∈ ds, d.time = d.realtime_time.getD d.planned_time :=
  run_events_good decode events init_state ds dep_inv_init h

/-- Witness for C1 on the repository's departure test payload. -/
theorem emitted_time_realtime_else_planned_witness :
    sample_dep1.time = sample_dep1.realtime_time.getD sample_dep1.planned_time ∧
    sample_dep2.time = sample_dep2.realtime_time.getD sample_dep2.planned_time :=
  ⟨emitted_time_realtime_else_planned (fun s => s) sample_events
      [sample_dep1, sample_dep2] (by decide) sample_dep1 (by decide),
   emitted_time_realtime_else_planned (fun s => s) sample_events
      [sample_dep1, sample_dep2] (by decide) sample_dep2 (by decide)⟩

/-- C3: each decoder fails exactly when the outer document fails to parse
(the library error is propagated verbatim); on any event stream or JSON
value that is read without error the result is `Ok`. -/
theorem decoders_single_fatal_condition (decode : String → String) :
    (∀ e, parse_stopfinder_json decode (.error e) = .error e) ∧
    (∀ j, ∃ l, parse_stopfinder_json decode (.ok j) = .ok l) ∧
    (∀ evs, (∀ x ∈ evs, ∃ ev, x = Except.ok ev) →
      ∃ ds, parse_departures_xml decode evs = .ok ds) ∧
    (∀ (pre : List (Except String XmlEvent)) (e : String) rest,
      (∀ x ∈ pre, ∃ ev, x = Except.ok ev) →
      parse_departures_xml decode (pre ++ .error e :: rest) = .error e) := by
  refine ⟨fun e => rfl, fun j => ⟨_, rfl⟩, ?_, ?_⟩
  · intro evs h
    exact run_events_all_ok decode evs init_state h
  · intro pre e rest h
    exact run_events_first_error decode pre e rest init_state h

/-- Witness for C3: a JSON parse error and a mid-stream XML read error are
propagated. -/
theorem decoders_single_fatal_condition_witness :
    parse_stopfinder_json (fun s => s) (.error "expected value at line 1") =
      .error "expected value at line 1" ∧
    parse_departures_xml (fun s => s)
      [.ok (.start "itdRequest" []), .error "unclosed tag"] = .error "unclosed tag" := by
  constructor
  · exact (decoders_single_fatal_condition (fun s => s)).1 "expected value at line 1"
  · exact (decoders_single_fatal_condition (fun s => s)).2.2.2
      [.ok (.start "itdRequest" [])] "unclosed tag" []
      (by intro x hx; simp only [List.mem_singleton] at hx; subst hx; exact ⟨_, rfl⟩)

/-- C2 counterexample: the stated time-element rules are order-dependent.
When the real-time sub-element precedes the scheduled one, the time element
lexically inside the scheduled sub-element does not set `plannedTime` (the
sub-element is never entered because a display time is already recorded), so
the departure is dropped; the same blocks in the expected order produce the
record. -/
theorem scheduled_after_realtime_cex :
    (run_state (fun s => s) rt_first_sched_time_run init_state).planned_time = none ∧
    parse_departures_xml (fun s => s) rt_first_events = .ok [] ∧
    parse_departures_xml (fun s => s) sched_first_events =
      .ok [{ line := "S1", direction := none, time := "08:07", planned_time := "08:05",
             realtime_time := some "08:07" }] := by decide

/-- C2 (amended): while the scheduled flag is active a time element sets
`plannedTime`, and sets `time` only when `realtimeTime` is unset; while the
real-time flag (and not the scheduled flag) is active it sets `realtimeTime`
and `time` unconditionally.  The flags themselves are order-dependent: the
scheduled sub-element is entered only while no display time is recorded and
the real-time sub-element only while no realtime time is recorded. -/
theorem time_element_rules (decode : String → String) (s : DepState)
    (attrs : List (String × String)) :
    (s.in_departure = true → s.in_datetime = true →
      step decode s (.start "itdTime" attrs) =
        match parse_time_from_attrs attrs with
        | some t =>
          { s with planned_time := some t,
                   current_time := if s.realtime_time.isNone then some t else s.current_time }
        | none => s) ∧
    (s.in_departure = true → s.in_datetime = false → s.in_rt_datetime = true →
      step decode s (.start "itdTime" attrs) =
        match parse_time_from_attrs attrs with
        | some t => { s with realtime_time := some t, current_time := some t }
        | none => s) ∧
    (step decode s (.start "itdDateTime" attrs) =
      if s.in_departure = true ∧ s.current_time = none then
        { s with in_datetime := true } else s) ∧
    (step decode s (.start "itdRTDateTime" attrs) =
      if s.in_departure = true ∧ s.realtime_time = none then
        { s with in_rt_datetime := true } else s) := by
  refine ⟨?_, ?_, ?_, ?_⟩
  · intro hdep hdt
    simp only [step]
    rw [if_neg (by decide), if_neg (by simp), if_neg (by simp)]
    unfold leaf_step
    rw [if_pos (by simp [hdep, hdt])]
  · intro hdep hdt hrt
    simp only [step]
    rw [if_neg (by decide), if_neg (by simp), if_neg (by simp)]
    unfold leaf_step
    rw [if_neg (by simp [hdt]), if_pos (by simp [hdep, hrt])]
  · simp only [step]
    rw [if_neg (by decide)]
    by_cases hdep : s.in_departure = true
    · rw [if_pos (by simp [hdep])]
      by_cases hct : s.current_time = none
      · rw [if_pos (by simp [Option.isNone_iff_eq_none, hct]), if_pos ⟨hdep, hct⟩]
      · rw [if_neg (by simpa [Option.isNone_iff_eq_none] using hct),
            if_neg (fun hc => hct hc.2)]
    · rw [if_neg (by simpa using hdep), if_neg (by simp), if_neg (fun hc => hdep hc.1)]
      unfold leaf_step
      rw [if_neg (by simp), if_neg (by simp), if_neg (by simp)]
  · simp only [step]
    rw [if_neg (by decide), if_neg (by simp)]
    by_cases hdep : s.in_departure = true
    · rw [if_pos (by simp [hdep])]
      by_cases hrt : s.realtime_time = none
      · rw [if_pos (by simp [Option.isNone_iff_eq_none, hrt]), if_pos ⟨hdep, hrt⟩]
      · rw [if_neg (by simpa [Option.isNone_iff_eq_none] using hrt),
            if_neg (fun hc => hrt hc.2)]
    · rw [if_neg (by simpa using hdep), if_neg (fun hc => hdep hc.1)]
      unfold leaf_step
      rw [if_neg (by simp), if_neg (by simp), if_neg (by simp)]

/-- Witness for C2 (amended) at concrete loop states. -/
theorem time_element_rules_witness :
    step (fun x => x) state_sched (.start "itdTime" [("hour", "8"), ("minute", "5")]) =
      { state_sched with planned_time := some "08:05", current_time := some "08:05" } ∧
    step (fun x => x) state_rt (.start "itdTime" [("hour", "8"), ("minute", "7")]) =
      { state_rt with realtime_time := some "08:07", current_time := some "08:07" } := by
  constructor
  · rw [(time_element_rules (fun x => x) state_sched
      [("hour", "8"), ("minute", "5")]).1 rfl rfl]
    decide
  · rw [(time_element_rules (fun x => x) state_rt
      [("hour", "8"), ("minute", "7")]).2.1 rfl rfl rfl]
    decide

lemma serving_line_start_step (decode : String → String) (s : DepState)
    (a : List (String × String)) (h : s.in_departure = true) :
    step decode s (.start "itdServingLine" a) =
      { s with current_line := (last_attr "symbol" a).or (last_attr "number" a),
               current_direction := (last_attr "direction" a).map decode } := by
  simp only [step]
  rw [if_neg (by decide), if_neg (by simp), if_neg (by simp)]
  unfold leaf_step
  rw [if_neg (by simp), if_neg (by simp), if_pos (by simp [h])]
  rfl

/-- C6: within a departure, a serving-line element sets `line` to its
`symbol` attribute falling back to `number`, and `direction` to the
entity-decoded `direction` attribute; a second serving-line element
overwrites both (last-wins). -/
theorem serving_line_rules (decode : String → String) (s : DepState)
    (a1 a2 : List (String × String)) (h : s.in_departure = true) :
    (step decode s (.start "itdServingLine" a1) =
      { s with current_line := (last_attr "symbol" a1).or (last_attr "number" a1),
               current_direction := (last_attr "direction" a1).map decode }) ∧
    (step decode (step decode s (.start "itdServingLine" a1))
        (.start "itdServingLine" a2) =
      { s with current_line := (last_attr "symbol" a2).or (last_attr "number" a2),
               current_direction := (last_attr "direction" a2).map decode }) := by
  constructor
  · exact serving_line_start_step decode s a1 h
  · rw [serving_line_start_step decode s a1 h]
    exact serving_line_start_step decode _ a2 h

/-- Witness for C6: `symbol`+`direction` overwritten by a `number`-only
serving line. -/
theorem serving_line_rules_witness :
    step (fun x => x)
      (step (fun x => x) state_sched
        (.start "itdServingLine" [("symbol", "S1"), ("direction", "Hbf")]))
      (.start "itdServingLine" [("number", "2")]) =
      { state_sched with current_line := some "2", current_direction := none } := by
  rw [(serving_line_rules (fun x => x) state_sched
    [("symbol", "S1"), ("direction", "Hbf")] [("number", "2")] rfl).2]
  decide

lemma leaf_step_time_none (decode : String → String) (s : DepState)
    (attrs : List (String × String)) (h : parse_time_from_attrs attrs = none) :
    leaf_step decode s "itdTime" attrs = s := by
  unfold leaf_step
  by_cases c1 : (decide ("itdTime" = "itdTime") && s.in_departure && s.in_datetime) = true
  · rw [if_pos c1, h]
  · rw [if_neg c1]
    by_cases c2 : (decide ("itdTime" = "itdTime") && s.in_departure && s.in_rt_datetime) = true
    · rw [if_pos c2, h]
    · rw [if_neg c2, if_neg (by simp)]

/-- C7: the hour/minute attributes of a time element are parsed as `u8` and
zero-padded to two digits; a failing attribute makes the element contribute
nothing; a departure that ends without a recorded display time emits no
record. -/
theorem time_attr_parsing_rules (attrs : List (String × String)) :
    (∀ h m hh mm, last_attr "hour" attrs = some h → last_attr "minute" attrs = some m →
      parse_u8 h = some hh → parse_u8 m = some mm →
      parse_time_from_attrs attrs = some (pad2 hh ++ ":" ++ pad2 mm)) ∧
    (∀ h, last_attr "hour" attrs = some h → parse_u8 h = none →
      parse_time_from_attrs attrs = none) ∧
    (∀ m, last_attr "minute" attrs = some m → parse_u8 m = none →
      parse_time_from_attrs attrs = none) ∧
    (∀ (decode : String → String) (s : DepState), parse_time_from_attrs attrs = none →
      step decode s (.start "itdTime" attrs) = s ∧
      step decode s (.empty "itdTime" attrs) = s) ∧
    (∀ (decode : String → String) (s : DepState), s.current_time = none →
      (step decode s (.endTag "itdDeparture")).departures = s.departures) := by
  refine ⟨?_, ?_, ?_, ?_, ?_⟩
  · intro h m hh mm hh1 hm1 hu1 hu2
    unfold parse_time_from_attrs
    rw [hh1, hm1]
    simp only [hu1, hu2]
  · intro h hh1 hu1
    cases hm : last_attr "minute" attrs with
    | none => simp [parse_time_from_attrs, hh1, hm]
    | some m => simp [parse_time_from_attrs, hh1, hm, hu1]
  · intro m hm1 hu1
    cases hh : last_attr "hour" attrs with
    | none => simp [parse_time_from_attrs, hh, hm1]
    | some h =>
      simp only [parse_time_from_attrs, hh, hm1, hu1]
      cases parse_u8 h <;> rfl
  · intro decode s hnone
    constructor
    · simp only [step]
      rw [if_neg (by decide), if_neg (by simp), if_neg (by simp)]
      exact leaf_step_time_none decode s attrs hnone
    · simp only [step]
      exact leaf_step_time_none decode s attrs hnone
  · intro decode s hct
    cases hcl : s.current_line <;> cases hpl : s.planned_time <;>
      simp [step, hct, hcl, hpl]

/-- Witness for C7: hour 8 / minute 5 yields "08:05"; a non-numeric hour
yields nothing. -/
theorem time_attr_parsing_rules_witness :
    parse_time_from_attrs [("hour", "8"), ("minute", "5")] = some "08:05" ∧
    parse_time_from_attrs [("hour", "8x"), ("minute", "5")] = none := by
  constructor
  · rw [(time_attr_parsing_rules [("hour", "8"), ("minute", "5")]).1 "8" "5" 8 5
      (by decide) (by decide) (by decide) (by decide)]
    decide
  · exact (time_attr_parsing_rules [("hour", "8x"), ("minute", "5")]).2.1 "8x"
      (by decide) (by decide)

lemma parse_stop_fields_isSome_iff (decode : String → String) (p : Json) :
    (parse_stop_fields decode p).isSome = true ↔
      ((p.get "name").bind Json.as_str).isSome = true ∧
      ∃ r, p.get "ref" = some r ∧ ((r.get "id").bind Json.as_str).isSome = true := by
  unfold parse_stop_fields
  cases hn : (p.get "name").bind Json.as_str with
  | none => simp
  | some name =>
    cases hr : p.get "ref" with
    | none => simp
    | some r =>
      cases hi : (r.get "id").bind Json.as_str with
      | none => simp [hi]
      | some id => simp [hi]

lemma parse_stop_point_eq_fields (decode : String → String) (p : Json)
    (h : resolved_type p = some "stop") :
    parse_stop_point decode p = parse_stop_fields decode p := by
  show (match resolved_type p with
    | none => none
    | some typ => if typ ≠ "stop" then none else parse_stop_fields decode p) = _
  rw [h]
  show (if ("stop" : String) ≠ "stop" then none else parse_stop_fields decode p) = _
  rw [if_neg (by simp)]

lemma parse_stop_point_some (decode : String → String) (p : Json) (s : StopSuggestion)
    (h : parse_stop_point decode p = some s) :
    ∃ name r id, (p.get "name").bind Json.as_str = some name ∧ p.get "ref" = some r ∧
      (r.get "id").bind Json.as_str = some id ∧
      s = { id := id, name := decode name,
            place := (((r.get "place").bind Json.as_str).map decode).filter
              (fun x => !x.isEmpty) } := by
  unfold parse_stop_point at h
  cases ht : resolved_type p with
  | none => rw [ht] at h; exact absurd h (by simp)
  | some typ =>
    rw [ht] at h
    replace h : (if typ ≠ "stop" then none else parse_stop_fields decode p) = some s := h
    by_cases hstop : typ ≠ "stop"
    · rw [if_pos hstop] at h; exact absurd h (by simp)
    · rw [if_neg hstop] at h
      unfold parse_stop_fields at h
      cases hn : (p.get "name").bind Json.as_str with
      | none => rw [hn] at h; exact absurd h (by simp)
      | some name =>
        rw [hn] at h
        replace h : (match p.get "ref" with
          | none => none
          | some reference =>
            match (reference.get "id").bind Json.as_str with
            | none => none
            | some id =>
              some { id := id, name := decode name,
                     place := (((reference.get "place").bind Json.as_str).map decode).filter
                       (fun x => !x.isEmpty) }) = some s := h
        cases hr : p.get "ref" with
        | none => rw [hr] at h; exact absurd h (by simp)
        | some r =>
          rw [hr] at h
          replace h : (match (r.get "id").bind Json.as_str with
            | none => none
            | some id =>
              some { id := id, name := decode name,
                     place := (((r.get "place").bind Json.as_str).map decode).filter
                       (fun x => !x.isEmpty) }) = some s := h
          cases hi : (r.get "id").bind Json.as_str with
          | none => rw [hi] at h; exact absurd h (by simp)
          | some id =>
            rw [hi] at h
            exact ⟨name, r, id, rfl, rfl, hi, (Option.some.inj h).symm⟩

/-- C4 counterexample: a `points` array with two stop-typed entries for which
the decoder returns a single record, whose `id` and `name` are empty. -/
theorem stopfinder_count_nonempty_cex :
    ([point_noname, point_empty_fields].filter
        (fun p => resolved_type p == some "stop")).length = 2 ∧
    parse_stopfinder_json (fun s => s) (.ok degenerate_json) =
      .ok [{ id := "", name := "", place := none }] := by decide

/-- C4 (amended): for a `points` array the decoder returns exactly the
successful per-point decodes, in the original relative order (the
`filterMap` of the per-point decoder over the array); `id` and `name` are
copied from the input without any non-emptiness check. -/
theorem stopfinder_points_array_decode (decode : String → String) (j sf : Json)
    (l : List Json) (h1 : j.get "stopFinder" = some sf)
    (h2 : sf.get "points" = some (.arr l)) :
    parse_stopfinder_json decode (.ok j) = .ok (l.filterMap (parse_stop_point decode)) := by
  show Except.ok (collect_points decode
      (((j.get "stopFinder").bind fun sf => sf.get "points").or (j.get "stopFinder"))) = _
  rw [h1]
  show Except.ok (collect_points decode ((sf.get "points").or (some sf))) = _
  rw [h2]
  rfl

/-- Witness for C4 (amended) on the repository's stop-search test payload. -/
theorem stopfinder_points_array_decode_witness :
    parse_stopfinder_json (fun s => s) (.ok sample_json) =
      .ok (sample_points.filterMap (parse_stop_point (fun s => s))) :=
  stopfinder_points_array_decode (fun s => s) sample_json sample_sf sample_points rfl rfl

/-- C5 counterexample: a point with `type` `"any"` and `anyType` `"stop"`
resolves to type `"stop"` yet is dropped (its `name` is missing), so "kept
if and only if the resolved type equals stop" fails in the `if` direction. -/
theorem resolved_stop_dropped_cex :
    resolved_type point_any_bare = some "stop" ∧
    parse_stop_point (fun s => s) point_any_bare = none := by decide

/-- C5 (amended): a point is kept if and only if its resolved type — the
`type` member, re-read from `anyType` when it is the literal `"any"` —
equals `"stop"` and its mandatory fields are present: a string `name` and a
`ref` object with a string `id`. -/
theorem stop_point_kept_iff (decode : String → String) (p : Json) :
    (parse_stop_point decode p).isSome = true ↔
      resolved_type p = some "stop" ∧
      ((p.get "name").bind Json.as_str).isSome = true ∧
      ∃ r, p.get "ref" = some r ∧ ((r.get "id").bind Json.as_str).isSome = true := by
  cases ht : resolved_type p with
  | none => simp [parse_stop_point, ht]
  | some typ =>
    by_cases hstop : typ = "stop"
    · subst hstop
      rw [parse_stop_point_eq_fields decode p ht, parse_stop_fields_isSome_iff]
      simp [ht]
    · simp [parse_stop_point, ht, hstop]

/-- Witness for C5 (amended): a complete point with `type` `"any"` and
`anyType` `"stop"` is kept. -/
theorem stop_point_kept_iff_witness :
    (parse_stop_point (fun x => x) point_any_full).isSome = true :=
  (stop_point_kept_iff (fun x => x) point_any_full).mpr
    ⟨by decide, by decide,
     ⟨.obj [("id", .str "7000002"), ("place", .str "Karlsruhe")], rfl, by decide⟩⟩

/-- C8: the point container is located at `stopFinder.points`, falling back
to the `stopFinder` value itself when `points` is absent; an object
container contributes via its `point` member (at most one suggestion), an
array container one pass over its elements, anything else nothing; every
well-parsed document yields `Ok`. -/
theorem stopfinder_container_rules (decode : String → String) :
    (∀ j sf p, j.get "stopFinder" = some sf → sf.get "points" = some p →
      parse_stopfinder_json decode (.ok j) = .ok (collect_points decode (some p))) ∧
    (∀ j sf, j.get "stopFinder" = some sf → sf.get "points" = none →
      parse_stopfinder_json decode (.ok j) = .ok (collect_points decode (some sf))) ∧
    (∀ j, j.get "stopFinder" = none → parse_stopfinder_json decode (.ok j) = .ok []) ∧
    (∀ m pt, List.lookup "point" m = some pt →
      collect_points decode (some (.obj m)) = (parse_stop_point decode pt).toList ∧
      (collect_points decode (some (.obj m))).length ≤ 1) ∧
    (∀ (m : List (String × Json)), List.lookup "point" m = none →
      collect_points decode (some (.obj m)) = []) ∧
    (∀ l, collect_points decode (some (.arr l)) = l.filterMap (parse_stop_point decode)) ∧
    (∀ v : Json, (∀ m, v ≠ .obj m) → (∀ l, v ≠ .arr l) →
      collect_points decode (some v) = []) ∧
    (∀ j, ∃ l, parse_stopfinder_json decode (.ok j) = .ok l) := by
  refine ⟨?_, ?_, ?_, ?_, ?_, fun l => rfl, ?_, fun j => ⟨_, rfl⟩⟩
  · intro j sf p h1 h2
    show Except.ok (collect_points decode
        (((j.get "stopFinder").bind fun sf => sf.get "points").or (j.get "stopFinder"))) = _
    rw [h1]
    show Except.ok (collect_points decode ((sf.get "points").or (some sf))) = _
    rw [h2]
    rfl
  · intro j sf h1 h2
    show Except.ok (collect_points decode
        (((j.get "stopFinder").bind fun sf => sf.get "points").or (j.get "stopFinder"))) = _
    rw [h1]
    show Except.ok (collect_points decode ((sf.get "points").or (some sf))) = _
    rw [h2]
    rfl
  · intro j h
    show Except.ok (collect_points decode
        (((j.get "stopFinder").bind fun sf => sf.get "points").or (j.get "stopFinder"))) = _
    rw [h]
    rfl
  · intro m pt h
    constructor
    · simp [collect_points, h]
    · simp only [collect_points, h]
      cases parse_stop_point decode pt <;> simp
  · intro m h
    simp [collect_points, h]
  · intro v h1 h2
    cases v with
    | obj m => exact absurd rfl (h1 m)
    | arr l => exact absurd rfl (h2 l)
    | null => rfl
    | bool b => rfl
    | num n => rfl
    | str s => rfl

/-- Witness for C8: the fallback container (no `points`, `stopFinder`
itself an array) is decoded. -/
theorem stopfinder_container_rules_witness :
    parse_stopfinder_json (fun x => x) (.ok fallback_json) =
      .ok (collect_points (fun x => x) (some (.arr sample_points))) :=
  (stopfinder_container_rules (fun x => x)).2.1 fallback_json (.arr sample_points) rfl rfl

/-- C9: a kept stop point never carries `place = some ""`: a missing (or
non-string) `ref.place` is omitted, and so is one that entity-decodes to
the empty string. -/
theorem place_omitted_rules (decode : String → String) (p : Json) (s : StopSuggestion)
    (h : parse_stop_point decode p = some s) :
    s.place ≠ some "" ∧
    (∀ r, p.get "ref" = some r → (r.get "place").bind Json.as_str = none →
      s.place = none) ∧
    (∀ r v, p.get "ref" = some r → (r.get "place").bind Json.as_str = some v →
      decode v = "" → s.place = none) := by
  obtain ⟨name, r, id, hn, hr, hi, hs⟩ := parse_stop_point_some decode p s h
  subst hs
  refine ⟨?_, ?_, ?_⟩
  · cases hpv : (r.get "place").bind Json.as_str with
    | none => simp [hpv]
    | some v =>
      simp only [hpv, Option.map_some']
      cases he : (decode v).isEmpty with
      | true => simp [Option.filter, he]
      | false =>
        intro hc
        simp only [Option.filter, he] at hc
        have hdv : decode v = "" := by
          simpa using hc
        rw [hdv] at he
        exact Bool.noConfusion he
  · intro r' hr' hpl
    rw [hr] at hr'
    obtain rfl : r = r' := Option.some.inj hr'
    simp [hpl]
  · intro r' v hr' hpl hdv
    rw [hr] at hr'
    obtain rfl : r = r' := Option.some.inj hr'
    simp only [hpl, hdv, Option.map_some', Option.filter]
    decide

/-- Witness for C9: a stop point whose `ref.place` is the empty string
yields a record with `place` absent. -/
theorem place_omitted_rules_witness :
    parse_stop_point (fun x => x) point_place_empty =
      some { id := "7000003", name := "Entenfang", place := none } ∧
    ({ id := "7000003", name := "Entenfang", place := none } : StopSuggestion).place =
      none := by
  refine ⟨by decide, ?_⟩
  exact (place_omitted_rules (fun x => x) point_place_empty
    { id := "7000003", name := "Entenfang", place := none } (by decide)).2.2
    ref_place_empty "" rfl rfl rfl

/-- C10: `departures_live` returns exactly the result of `departures` for
every transport outcome, reader, decoder, station identifier and limit. -/
theorem departures_live_eq_departures
    (fetch_text : List (String × String) → Except String String)
    (read_events : String → List (Except String XmlEvent))
    (decode : String → String) (station_id : String) (max : Nat) :
    departures_live fetch_text read_events decode station_id max =
      departures fetch_text read_events decode station_id max := rfl

end KVV
